import Mathlib

/-!
Verification development for the ScaleProtocol position engine
(src/programs/protocol/src/lib.rs).

Shallow embedding conventions:
- u64 values are Nat with explicit wrap-around or range checks at 2 ^ 64
  where the Rust code can overflow; i64 values are Int with explicit range
  checks at 2 ^ 63.
- Rust checked arithmetic returns Option; an unwrap of None (a Rust panic,
  which aborts the whole transaction) is modelled by a None result of the
  enclosing function.
- BigDecimal values are modelled as rationals. The BigDecimal division used
  for the stored asset amount rounds to a default precision (100 significant
  digits) in the Rust crate; it is modelled as exact rational division here,
  and no theorem in this file depends on the value of that field as computed
  by create. The fee division by 10000 is a decimal shift, exact in the
  crate for operands below the precision limit, and is modelled as exact.
- Plain (unchecked) u64 and i64 addition and subtraction compile to
  wrapping arithmetic in release builds; they are modelled as wrapping.
-/

namespace ScaleProtocol

/-! Machine integer helpers. -/

def U64_MOD : ℕ := 2 ^ 64
def I64_MAX : ℤ := 2 ^ 63 - 1
def I64_MIN : ℤ := -(2 ^ 63)

/-- Rust u64 checked_add. -/
def checked_add_u64 (a b : ℕ) : Option ℕ :=
  if a + b < U64_MOD then some (a + b) else none

/-- Rust u64 checked_sub. -/
def checked_sub_u64 (a b : ℕ) : Option ℕ :=
  if b ≤ a then some (a - b) else none

/-- Rust u64 checked_mul. -/
def checked_mul_u64 (a b : ℕ) : Option ℕ :=
  if a * b < U64_MOD then some (a * b) else none

/-- Rust u64 checked_div. -/
def checked_div_u64 (a b : ℕ) : Option ℕ :=
  if b = 0 then none else some (a / b)

/-- Rust u64 wrapping addition, the release-build semantics of plain +. -/
def add64 (a b : ℕ) : ℕ := (a + b) % U64_MOD

/-- Rust u64 wrapping subtraction, the release-build semantics of plain -. -/
def sub64 (a b : ℕ) : ℕ := (((a : ℤ) - (b : ℤ)) % (U64_MOD : ℤ)).toNat

/-- Rust cast from i64 to u64 (two-complement reinterpretation). -/
def i64_as_u64 (a : ℤ) : ℕ := (a % (U64_MOD : ℤ)).toNat

/-- Rust cast from u64 to i64 (two-complement reinterpretation). -/
def u64_as_i64 (n : ℕ) : ℤ :=
  if (n : ℤ) ≤ I64_MAX then (n : ℤ) else (n : ℤ) - (U64_MOD : ℤ)

/-- Rust i64 wrapping subtraction, the release-build semantics of plain -. -/
def sub_i64_wrap (a b : ℤ) : ℤ :=
  ((a - b) - I64_MIN) % (U64_MOD : ℤ) + I64_MIN

/-- Rust i64 checked_add. -/
def checked_add_i64 (a b : ℤ) : Option ℤ :=
  if I64_MIN ≤ a + b ∧ a + b ≤ I64_MAX then some (a + b) else none

/-- Rust i64 checked_sub. -/
def checked_sub_i64 (a b : ℤ) : Option ℤ :=
  if I64_MIN ≤ a - b ∧ a - b ≤ I64_MAX then some (a - b) else none

/-- Rust i64 checked_div (truncating division; fails on division by zero
and on the overflowing case MIN div -1). -/
def checked_div_i64 (a b : ℤ) : Option ℤ :=
  if b = 0 ∨ (a = I64_MIN ∧ b = -1) then none else some (Int.tdiv a b)

/-- Rust u64 checked_pow with base 10, as in 10u64.checked_pow(k). -/
def checked_pow10_u64 (k : ℕ) : Option ℕ :=
  if 10 ^ k < U64_MOD then some (10 ^ k) else none

/-- Truncation of a rational toward zero, as BigDecimal to_bigint does. -/
def ratTrunc (q : ℚ) : ℤ := if q < 0 then ⌈q⌉ else ⌊q⌋

/-- BigDecimal to_u64 from the ToPrimitive impl: truncate toward zero,
then fail if the result is negative or does not fit in u64. -/
def bigToU64 (q : ℚ) : Option ℕ :=
  if 0 ≤ ratTrunc q ∧ ratTrunc q < (U64_MOD : ℤ) then some (ratTrunc q).toNat
  else none

/-! Data model from lib.rs. -/

/-- Error enum ProtocolError of lib.rs (lines 8-26). -/
inductive ProtocolError where
  | InvalidPrice
  | InvalidPriceAccount
  | SlippageReached
  | InsufficientBalance
  | InvalidLeverage
  | PositionLiquidated
  | InvalidArgs
  | InvalidSignature
  deriving DecidableEq, Repr

/-- MAX_LEVERAGE constant (line 28). -/
def MAX_LEVERAGE : ℕ := 100

inductive PositionType where
  | Isolated
  | Cross
  deriving DecidableEq, Repr

inductive Direction where
  | Long
  | Short
  deriving DecidableEq, Repr

inductive PositionStatus where
  | Open
  | Processed
  deriving DecidableEq, Repr

/-- PositionArgs (lib.rs lines 168-185). Field price is u64, expo is i32,
decimals is u8 and the remaining numeric fields are u64. -/
structure PositionArgs where
  price : ℕ
  expo : ℤ
  decimals : ℕ
  leverage_margin : ℕ
  leverage : ℕ
  ptype : PositionType
  direction : Direction
  slippage_numerator : ℕ
  margin_rate_numerator : ℕ
  deriving DecidableEq, Repr

/-- Position account (lib.rs lines 213-233). Pubkeys are abstracted as
naturals; the amount field, a decimal string in the source, is modelled as
the rational it denotes. -/
structure Position where
  pool : ℕ
  owner : ℕ
  index : ℕ
  status : PositionStatus
  ptype : PositionType
  direction : Direction
  decimals : ℕ
  leverage : ℕ
  last_price : ℤ
  margin : ℕ
  margin_rate_numerator : ℕ
  overnight_fee_numerator : ℕ
  liquidation : ℕ
  created_at : ℤ
  slot : ℕ
  amount : ℚ
  deriving DecidableEq, Repr

/-- Oracle quote, the pyth Price record returned by get_current_price:
price is i64, conf is u64, expo is i32. -/
structure PriceQ where
  price : ℤ
  conf : ℕ
  expo : ℤ
  deriving DecidableEq, Repr

/-- LiquidatedData (lib.rs lines 395-401). -/
structure LiquidatedData where
  is_liquidated : Bool
  price : ℕ
  time : ℤ
  slot : ℕ
  deriving DecidableEq, Repr

/-- ProcessData (lib.rs lines 402-407); the signature is an opaque byte
string, the pubkey an abstract identity. -/
structure ProcessData where
  message : LiquidatedData
  pubkey : ℕ
  signature : List ℕ
  deriving DecidableEq, Repr

/-! Position methods and free functions from lib.rs. -/

/-- PositionArgs::margin (lines 186-192): leverage_margin.checked_div
(leverage).unwrap(). None models the panic of unwrap when leverage = 0. -/
def PositionArgs.margin (a : PositionArgs) : Option ℕ :=
  checked_div_u64 a.leverage_margin a.leverage

/-- Position::is_liquidated (lines 255-261). -/
def Position.is_liquidated (p : Position) (price : ℕ) : Bool :=
  match p.direction with
  | .Long => price ≤ p.liquidation
  | .Short => p.liquidation ≤ price

/-- Position::maintainance_margin (lines 263-268):
margin.checked_mul(margin_rate_numerator).unwrap().checked_div(10000)
.unwrap(); None models the panic on multiplication overflow. -/
def Position.maintainance_margin (p : Position) : Option ℕ :=
  (checked_mul_u64 p.margin p.margin_rate_numerator).bind
    fun x => checked_div_u64 x 10000

/-- Position::bond (lines 280-283): margin - maintainance_margin() with a
plain u64 subtraction (wrapping in release builds). -/
def Position.bond (p : Position) : Option ℕ :=
  (p.maintainance_margin).map fun mm => sub64 p.margin mm

/-- Position::overnight_fee (lines 270-278): checked i64 day bucketing,
a cast of days to u64, then BigDecimal arithmetic truncated by to_u64;
None models the panics of the unwraps. -/
def Position.overnight_fee (p : Position) (time : ℤ) : Option ℕ :=
  (checked_sub_i64 time p.created_at).bind fun d1 =>
  (checked_add_i64 d1 86400).bind fun d2 =>
  (checked_div_i64 d2 86400).bind fun dq =>
  let days : ℕ := i64_as_u64 dq
  bigToU64 (p.amount * (p.leverage : ℚ) * (days : ℚ)
    * (p.overnight_fee_numerator : ℚ) / 10000)

/-- Position::get_liquidated_margin (lines 285-289):
maintainance_margin().checked_sub(overnight_fee).unwrap(); None models the
panic of unwrap when the fee exceeds the maintenance margin. -/
def Position.get_liquidated_margin (p : Position) (time : ℤ) : Option ℕ :=
  (p.overnight_fee time).bind fun fee =>
  (p.maintainance_margin).bind fun mm =>
  checked_sub_u64 mm fee

/-- get_liquidation (lines 464-476): the entry price is cast from i64 to
u64, then the bond is subtracted (Long) or added (Short) with a checked
operation whose unwrap panics on failure. -/
def get_liquidation (price : ℤ) (bond : ℕ) (direction : Direction) :
    Option ℕ :=
  match direction with
  | .Long => checked_sub_u64 (i64_as_u64 price) bond
  | .Short => checked_add_u64 (i64_as_u64 price) bond

/-- get_asset_amount (lines 478-480): BigDecimal division of the leverage
margin by the execution price, modelled as exact rational division. -/
def get_asset_amount (leverage_margin : ℕ) (price : ℚ) : ℚ :=
  (leverage_margin : ℚ) / price

/-- check_slippage (lines 482-510). The observed price is the integer
(floor) division of args.price by 10 to the absolute value of args.expo,
converted to BigDecimal only afterwards; the comparisons are exact
BigDecimal comparisons, inclusive at the boundary. -/
def check_slippage (price : ℚ) (args : PositionArgs) :
    Except ProtocolError Unit :=
  let slippage : ℚ := (args.slippage_numerator : ℚ) / 10000
  match checked_pow10_u64 args.expo.natAbs with
  | none => .error .InvalidPrice
  | some pw =>
    match checked_div_u64 args.price pw with
    | none => .error .InvalidPrice
    | some pb =>
      let price_before : ℚ := (pb : ℚ)
      match args.direction with
      | .Long =>
        if price_before * (1 + slippage) ≤ price then .error .SlippageReached
        else .ok ()
      | .Short =>
        if price ≤ price_before * (1 - slippage) then .error .SlippageReached
        else .ok ()

/-- Position::get_profit (lines 291-342). The oracle quote arrives as a
pyth Price; None models panics inside overnight_fee, a some error models
the surfaced Result errors, and wrapping subtraction models the plain i64
difference computations. -/
def Position.get_profit (p : Position) (cp : PriceQ) (time : ℤ) :
    Option (Except ProtocolError ℕ) :=
  match checked_sub_i64 cp.price (u64_as_i64 cp.conf) with
  | none => some (.error .InvalidPrice)
  | some sold =>
    match p.direction with
    | .Long =>
      if sold < p.last_price then
        let difference := sub_i64_wrap p.last_price sold
        match checked_sub_u64 p.margin (i64_as_u64 difference) with
        | none => some (.error .InvalidPrice)
        | some m1 =>
          match p.overnight_fee time with
          | none => none
          | some fee =>
            match checked_sub_u64 m1 fee with
            | none => some (.error .InvalidPrice)
            | some m2 => some (.ok m2)
      else
        match bigToU64 ((sold : ℚ) * p.amount) with
        | none => some (.error .InvalidPrice)
        | some earned =>
          match p.overnight_fee time with
          | none => none
          | some fee =>
            match checked_sub_u64 p.margin fee with
            | none => some (.error .InvalidPrice)
            | some m1 =>
              match checked_add_u64 m1 earned with
              | none => some (.error .InvalidPrice)
              | some m2 => some (.ok m2)
    | .Short =>
      match checked_add_i64 cp.price (u64_as_i64 cp.conf) with
      | none => some (.error .InvalidPrice)
      | some bought =>
        if p.last_price < bought then
          let difference := sub_i64_wrap bought p.last_price
          match checked_sub_u64 p.margin (i64_as_u64 difference) with
          | none => some (.error .InvalidPrice)
          | some m1 =>
            match p.overnight_fee time with
            | none => none
            | some fee =>
              match checked_sub_u64 m1 fee with
              | none => some (.error .InvalidPrice)
              | some m2 => some (.ok m2)
        else
          match bigToU64 ((sold : ℚ) * p.amount) with
          | none => some (.error .InvalidPrice)
          | some earned =>
            match p.overnight_fee time with
            | none => none
            | some fee =>
              match checked_sub_u64 p.margin fee with
              | none => some (.error .InvalidPrice)
              | some m1 =>
                match checked_add_u64 m1 earned with
                | none => some (.error .InvalidPrice)
                | some m2 => some (.ok m2)

/-! Instruction handlers from the program module (lines 30-166). The Clock
values and the oracle quote are parameters standing for the external
collaborators; a quote parameter of the form error e models a failing
get_current_price. -/

/-- create (lines 34-90). A None result models a panic (zero-leverage
unwrap, a failing unwrap inside get_liquidation, or the unimplemented
Cross branch); fields never assigned by the handler keep the zero state of
a freshly initialized account. -/
def create (quote : Except ProtocolError PriceQ) (now : ℤ) (slotv : ℕ)
    (pool owner : ℕ) (index : ℕ) (args : PositionArgs) :
    Option (Except ProtocolError Position) :=
  match args.margin with
  | none => none
  | some mrg =>
    if MAX_LEVERAGE < args.leverage then some (.error .InvalidLeverage)
    else
      match quote with
      | .error e => some (.error e)
      | .ok cp =>
        let p0 : Position :=
          { pool := pool, owner := owner, index := index,
            status := .Open, ptype := args.ptype,
            direction := args.direction, decimals := args.decimals,
            leverage := 0, last_price := cp.price, margin := mrg,
            margin_rate_numerator := 0, overnight_fee_numerator := 0,
            liquidation := 0, created_at := now, slot := slotv,
            amount := 0 }
        match p0.bond with
        | none => none
        | some b =>
          match get_liquidation cp.price b args.direction with
          | none => none
          | some liq =>
            match args.ptype with
            | .Cross => none
            | .Isolated =>
              match args.direction with
              | .Long =>
                match checked_add_u64 (i64_as_u64 cp.price) cp.conf with
                | none => some (.error .InvalidPrice)
                | some ask =>
                  match check_slippage (ask : ℚ) args with
                  | .error e => some (.error e)
                  | .ok _ => some (.ok { p0 with
                      liquidation := liq,
                      amount := get_asset_amount args.leverage_margin
                        (ask : ℚ) })
              | .Short =>
                match checked_sub_u64 (i64_as_u64 cp.price) cp.conf with
                | none => some (.error .InvalidPrice)
                | some bid =>
                  match check_slippage (bid : ℚ) args with
                  | .error e => some (.error e)
                  | .ok _ => some (.ok { p0 with
                      liquidation := liq,
                      amount := get_asset_amount args.leverage_margin
                        (bid : ℚ) })

/-- increase_margin (lines 124-140): fail with PositionLiquidated if the
position is liquidated at the current oracle price, otherwise add the
amount to the margin with a plain (wrapping) addition and recompute the
liquidation threshold from the stored last_price and the new bond. -/
def increase_margin (quote : Except ProtocolError PriceQ) (p : Position)
    (amount : ℕ) : Option (Except ProtocolError Position) :=
  match quote with
  | .error e => some (.error e)
  | .ok cp =>
    if p.is_liquidated (i64_as_u64 cp.price) then
      some (.error .PositionLiquidated)
    else
      let p1 := { p with margin := add64 p.margin amount }
      match p1.bond with
      | none => none
      | some b =>
        match get_liquidation p1.last_price b p1.direction with
        | none => none
        | some liq => some (.ok { p1 with liquidation := liq })

/-- process_position (lines 142-165). The sigOk flag is the outcome of the
delegated Ed25519 verification of ProcessData::verify (lines 409-422) over
the caller supplied signature, pubkey and serialized message; on failure
the handler fails with InvalidSignature, otherwise it marks the position
Processed and returns the settlement amount. -/
def process_position (sigOk : Bool)
    (quote : Except ProtocolError PriceQ) (p : Position)
    (data : ProcessData) :
    Option (Except ProtocolError (Position × ℕ)) :=
  if sigOk = false then some (.error .InvalidSignature)
  else
    let p1 := { p with status := PositionStatus.Processed }
    if data.message.is_liquidated then
      match p1.get_liquidated_margin data.message.time with
      | none => none
      | some m => some (.ok (p1, m))
    else
      match quote with
      | .error e => some (.error e)
      | .ok cp =>
        match p1.get_profit cp data.message.time with
        | none => none
        | some (.error e) => some (.error e)
        | some (.ok m) => some (.ok (p1, m))

/-! Ed25519 verification instruction layout (lib.rs lines 512-578). -/

def PUBKEY_SERIALIZED_SIZE : ℕ := 32
def SIGNATURE_SERIALIZED_SIZE : ℕ := 64
def SIGNATURE_OFFSETS_SERIALIZED_SIZE : ℕ := 14
def SIGNATURE_OFFSETS_START : ℕ := 2
def DATA_START : ℕ :=
  SIGNATURE_OFFSETS_SERIALIZED_SIZE + SIGNATURE_OFFSETS_START

/-- Ed25519SignatureOffsets (lines 518-528); every field is a u16. -/
structure Ed25519SignatureOffsets where
  signature_offset : ℕ
  signature_instruction_index : ℕ
  public_key_offset : ℕ
  public_key_instruction_index : ℕ
  message_data_offset : ℕ
  message_data_size : ℕ
  message_instruction_index : ℕ
  deriving DecidableEq, Repr

/-- Little-endian byte pair of a u16 value. -/
def le16 (n : ℕ) : List ℕ := [n % 256, n / 256 % 256]

/-- bytes_of for the repr(C) offsets record on a little-endian target:
seven u16 fields in declaration order, no padding. -/
def Ed25519SignatureOffsets.bytes (o : Ed25519SignatureOffsets) :
    List ℕ :=
  le16 o.signature_offset ++ le16 o.signature_instruction_index ++
  le16 o.public_key_offset ++ le16 o.public_key_instruction_index ++
  le16 o.message_data_offset ++ le16 o.message_data_size ++
  le16 o.message_instruction_index

/-- new_ed25519_program_instruction (lines 530-578), reduced to the
instruction data bytes it assembles; None models the failing length
assertions at entry, and the cast of the message length to u16 wraps. -/
def new_ed25519_program_instruction
    (signature pubkey message : List ℕ) : Option (List ℕ) :=
  if pubkey.length = PUBKEY_SERIALIZED_SIZE ∧
      signature.length = SIGNATURE_SERIALIZED_SIZE then
    let public_key_offset := DATA_START
    let signature_offset := public_key_offset + PUBKEY_SERIALIZED_SIZE
    let message_data_offset :=
      signature_offset + SIGNATURE_SERIALIZED_SIZE
    let offsets : Ed25519SignatureOffsets :=
      { signature_offset := signature_offset
        signature_instruction_index := 65535
        public_key_offset := public_key_offset
        public_key_instruction_index := 65535
        message_data_offset := message_data_offset
        message_data_size := message.length % 65536
        message_instruction_index := 65535 }
    some ([1, 0] ++ offsets.bytes ++ pubkey ++ signature ++ message)
  else none

/-! Lifecycle of one position account, assembled from the handlers and the
Anchor account constraints of the Accounts structs (lines 345-364 for
Create with init, 382-393 for IncreaseMargin, 425-442 for ProcessPosition
with close = payer). -/

/-- One instruction against the position account addressed by a fixed
(owner, index) seed pair. -/
inductive Op where
  | createOp (quote : Except ProtocolError PriceQ) (now : ℤ) (slotv : ℕ)
      (pool owner index : ℕ) (args : PositionArgs)
  | increaseMarginOp (quote : Except ProtocolError PriceQ) (amount : ℕ)
  | processPositionOp (sigOk : Bool)
      (quote : Except ProtocolError PriceQ) (data : ProcessData)

/-- One atomic transaction. The store is None while the account does not
exist. The init constraint makes create fail on an existing account, a
returned error or panic aborts the transaction leaving the store
unchanged, and a successful process_position removes the account, as its
close = payer constraint prescribes. -/
def step (s : Option Position) (op : Op) : Option Position :=
  match s, op with
  | none, .createOp q now sl pool owner idx args =>
    match create q now sl pool owner idx args with
    | some (.ok p) => some p
    | _ => none
  | some p, .createOp _ _ _ _ _ _ _ => some p
  | none, .increaseMarginOp _ _ => none
  | none, .processPositionOp _ _ _ => none
  | some p, .increaseMarginOp q amt =>
    match increase_margin q p amt with
    | some (.ok p1) => some p1
    | _ => some p
  | some p, .processPositionOp sigOk q data =>
    match process_position sigOk q p data with
    | some (.ok _) => none
    | _ => some p

/-- Run a sequence of transactions from the empty store. -/
def run (ops : List Op) : Option Position := ops.foldl step none

/-! Helper lemmas on the machine arithmetic. -/

theorem add64_eq {a b : ℕ} (h : a + b < U64_MOD) : add64 a b = a + b :=
  Nat.mod_eq_of_lt h

theorem sub64_eq {a b : ℕ} (hba : b ≤ a) (ha : a < U64_MOD) :
    sub64 a b = a - b := by
  unfold sub64
  rw [← Nat.cast_sub hba]
  rw [Int.emod_eq_of_lt (by positivity)
    (by exact_mod_cast lt_of_le_of_lt (Nat.sub_le a b) ha)]
  exact Int.toNat_natCast _

theorem i64_as_u64_eq {a : ℤ} (h0 : 0 ≤ a) (h1 : a < (U64_MOD : ℤ)) :
    i64_as_u64 a = a.toNat := by
  unfold i64_as_u64
  rw [Int.emod_eq_of_lt h0 h1]

theorem maintainance_margin_eq (p : Position)
    (h : p.margin * p.margin_rate_numerator < U64_MOD) :
    p.maintainance_margin = some (p.margin * p.margin_rate_numerator / 10000) := by
  simp [Position.maintainance_margin, checked_mul_u64, checked_div_u64, h]

theorem mm_le_margin (p : Position) (hr : p.margin_rate_numerator ≤ 10000) :
    p.margin * p.margin_rate_numerator / 10000 ≤ p.margin := by
  calc p.margin * p.margin_rate_numerator / 10000
      ≤ p.margin * 10000 / 10000 :=
        Nat.div_le_div_right (Nat.mul_le_mul_left _ hr)
    _ = p.margin := Nat.mul_div_cancel _ (by norm_num)

theorem bond_eq (p : Position)
    (h : p.margin * p.margin_rate_numerator < U64_MOD)
    (hr : p.margin_rate_numerator ≤ 10000)
    (hm : p.margin < U64_MOD) :
    p.bond = some (p.margin - p.margin * p.margin_rate_numerator / 10000) := by
  rw [Position.bond, maintainance_margin_eq p h]
  show some (sub64 p.margin (p.margin * p.margin_rate_numerator / 10000)) = _
  rw [sub64_eq (mm_le_margin p hr) hm]

/-! Claim theorems. -/

/-- Claim C7: is_liquidated returns true for a Long position exactly when
the current price is at or below the liquidation threshold, for a Short
position exactly when it is at or above it (the boundary price is
liquidated), and for a Long position the result is monotone: once true at
some price it stays true at every lower price. -/
theorem c7_is_liquidated (p : Position) (price : ℕ) :
    (p.direction = Direction.Long →
      (p.is_liquidated price = true ↔ price ≤ p.liquidation)) ∧
    (p.direction = Direction.Short →
      (p.is_liquidated price = true ↔ p.liquidation ≤ price)) ∧
    (∀ price2, p.direction = Direction.Long → price2 ≤ price →
      p.is_liquidated price = true → p.is_liquidated price2 = true) := by
  refine ⟨fun h => ?_, fun h => ?_, fun price2 h hle hliq => ?_⟩
  · simp [Position.is_liquidated, h]
  · simp [Position.is_liquidated, h]
  · simp only [Position.is_liquidated, h] at hliq ⊢
    simp only [decide_eq_true_eq] at hliq ⊢
    exact le_trans hle hliq

def c7pos : Position :=
  { pool := 0, owner := 0, index := 0, status := .Open, ptype := .Isolated,
    direction := .Long, decimals := 0, leverage := 1, last_price := 0,
    margin := 0, margin_rate_numerator := 0, overnight_fee_numerator := 0,
    liquidation := 10, created_at := 0, slot := 0, amount := 0 }

theorem c7_witness : c7pos.is_liquidated 5 = true :=
  ((c7_is_liquidated c7pos 5).1 rfl).mpr (by decide)

/-- Claim C2 as stated is violated by the code: at this concrete position
the overnight fee (400) exceeds the maintenance margin (300), and
get_liquidated_margin does not floor the result at zero but panics (the
checked_sub unwrap fails), modelled by the None result. -/
def c2pos : Position :=
  { pool := 0, owner := 0, index := 0, status := .Open, ptype := .Isolated,
    direction := .Long, decimals := 0, leverage := 1, last_price := 0,
    margin := 10000, margin_rate_numerator := 300,
    overnight_fee_numerator := 10000, liquidation := 0, created_at := 0,
    slot := 0, amount := 400 }

/-- Claim C2: at the failing input, the maintenance margin is 300, the
one-day overnight fee is 400, and get_liquidated_margin traps (None)
instead of returning the claimed floor value of zero. -/
theorem c2_liquidated_margin_panics :
    c2pos.maintainance_margin = some 300 ∧
    c2pos.overnight_fee 0 = some 400 ∧
    c2pos.get_liquidated_margin 0 = none ∧
    c2pos.get_liquidated_margin 0 ≠ some 0 := by
  have hfee : c2pos.overnight_fee 0 = some 400 := by
    simp only [Position.overnight_fee, c2pos, checked_sub_i64,
      checked_add_i64, checked_div_i64, I64_MIN, I64_MAX, i64_as_u64,
      U64_MOD, bigToU64, ratTrunc]
    norm_num [Int.tdiv]
    decide
  have hmm : c2pos.maintainance_margin = some 300 := by decide
  have hgl : c2pos.get_liquidated_margin 0 = none := by
    rw [Position.get_liquidated_margin, hfee, Option.some_bind, hmm,
      Option.some_bind]
    decide
  refine ⟨hmm, hfee, hgl, by simp [hgl]⟩

/-- Claim C3 as stated is violated by the code: with leverage zero,
PositionArgs::margin divides by zero under an unwrap, so create panics
(None) before the leverage bound check ever runs; it does not fail with
the typed error InvalidLeverage. -/
def c3args : PositionArgs :=
  { price := 0, expo := 0, decimals := 0, leverage_margin := 100,
    leverage := 0, ptype := .Isolated, direction := .Long,
    slippage_numerator := 0, margin_rate_numerator := 0 }

/-- Claim C3: at leverage zero the open operation traps in the margin
division (None) rather than failing with InvalidLeverage. -/
theorem c3_zero_leverage_panics :
    c3args.margin = none ∧
    create (.ok ⟨1000, 1, 0⟩) 0 0 0 0 0 c3args = none ∧
    create (.ok ⟨1000, 1, 0⟩) 0 0 0 0 0 c3args ≠
      some (.error ProtocolError.InvalidLeverage) := by
  refine ⟨by decide, by rfl, by simp [create, c3args, PositionArgs.margin,
    checked_div_u64]⟩

/-- Claim C1 counterexample input: a position whose owner is identity 1
and an attestation whose verified signer is identity 2. -/
def c1pos : Position :=
  { pool := 0, owner := 1, index := 0, status := .Open, ptype := .Isolated,
    direction := .Long, decimals := 0, leverage := 1, last_price := 0,
    margin := 10000, margin_rate_numerator := 300,
    overnight_fee_numerator := 0, liquidation := 0, created_at := 0,
    slot := 0, amount := 0 }

def c1data : ProcessData :=
  { message := { is_liquidated := true, price := 0, time := 0, slot := 0 },
    pubkey := 2, signature := [] }

/-- Claim C1 is false on the code: with a verified signer (2) different
from every identity the position records (owner 1), process_position does
not fail with any error — the program has no InvalidAuthority error at
all — but succeeds and pays out the settlement of 300. -/
theorem c1_counterexample :
    c1data.pubkey ≠ c1pos.owner ∧
    process_position true (.ok ⟨0, 0, 0⟩) c1pos c1data =
      some (.ok ({ c1pos with status := .Processed }, 300)) := by
  refine ⟨by decide, ?_⟩
  simp only [process_position, c1pos, c1data,
    Position.get_liquidated_margin, Position.overnight_fee,
    Position.maintainance_margin, checked_sub_i64, checked_add_i64,
    checked_div_i64, checked_mul_u64, checked_div_u64, checked_sub_u64,
    I64_MIN, I64_MAX, i64_as_u64, U64_MOD, bigToU64, ratTrunc]
  norm_num [Int.tdiv]

/-- Claim C1 amended: closure is gated only by the Ed25519 verification of
the caller-supplied triple. A failed verification yields InvalidSignature;
a successful one makes the outcome entirely independent of the attested
signer public key — the handler never compares the signer with any
recorded identity. -/
theorem c1_no_authority_check (quote : Except ProtocolError PriceQ)
    (p : Position) (data : ProcessData) :
    process_position false quote p data =
      some (.error ProtocolError.InvalidSignature) ∧
    (∀ pk1 pk2,
      process_position true quote p { data with pubkey := pk1 } =
      process_position true quote p { data with pubkey := pk2 }) :=
  ⟨rfl, fun _ _ => rfl⟩

/-- Claim C5 counterexample input: one unit of asset, leverage 1, a fee
numerator of 1 basis point. -/
def c5pos : Position :=
  { pool := 0, owner := 0, index := 0, status := .Open, ptype := .Isolated,
    direction := .Long, decimals := 0, leverage := 1, last_price := 0,
    margin := 0, margin_rate_numerator := 0, overnight_fee_numerator := 1,
    liquidation := 0, created_at := 0, slot := 0, amount := 1 }

/-- Claim C5 is false in its final clause: a closure at now = created_at
is indeed charged one day, but the resulting fee truncates to zero here
(1 * 1 * 1 * 1 / 10000 < 1), so the fee is not non-zero. -/
theorem c5_counterexample :
    c5pos.created_at = 0 ∧ c5pos.overnight_fee 0 = some 0 := by
  refine ⟨rfl, ?_⟩
  simp only [Position.overnight_fee, c5pos, checked_sub_i64,
    checked_add_i64, checked_div_i64, I64_MIN, I64_MAX, i64_as_u64,
    U64_MOD, bigToU64, ratTrunc]
  norm_num [Int.tdiv]

/-- Claim C5 amended: for now at or after created_at (with the day count
staying inside the i64 range and the fee inside the u64 range), the
overnight fee is exactly the truncation of amount * leverage * days *
overnight_fee_numerator / 10000 with days = floor((now - created_at +
86400) / 86400), and a closure at now = created_at is charged exactly one
day; the fee can truncate to zero, so it is not always non-zero. -/
theorem c5_overnight_fee_formula (p : Position) (now : ℤ)
    (hA : 0 ≤ p.amount)
    (h1 : p.created_at ≤ now)
    (h2 : now - p.created_at + 86400 ≤ I64_MAX)
    (h3 : ⌊p.amount * (p.leverage : ℚ)
      * ((((now - p.created_at + 86400).tdiv 86400).toNat : ℕ) : ℚ)
      * (p.overnight_fee_numerator : ℚ) / 10000⌋ < (U64_MOD : ℤ)) :
    p.overnight_fee now =
      some (⌊p.amount * (p.leverage : ℚ)
        * ((((now - p.created_at + 86400).tdiv 86400).toNat : ℕ) : ℚ)
        * (p.overnight_fee_numerator : ℚ) / 10000⌋).toNat ∧
    (now = p.created_at →
      (now - p.created_at + 86400).tdiv 86400 = 1) := by
  have hd0 : 0 ≤ now - p.created_at := sub_nonneg.mpr h1
  have hmin0 : I64_MIN ≤ (0 : ℤ) := by norm_num [I64_MIN]
  have hdmax : now - p.created_at ≤ I64_MAX := by linarith
  have e1 : checked_sub_i64 now p.created_at = some (now - p.created_at) := by
    unfold checked_sub_i64
    rw [if_pos ⟨le_trans hmin0 hd0, hdmax⟩]
  have e2 : checked_add_i64 (now - p.created_at) 86400 =
      some (now - p.created_at + 86400) := by
    unfold checked_add_i64
    rw [if_pos ⟨by linarith, h2⟩]
  have e3 : checked_div_i64 (now - p.created_at + 86400) 86400 =
      some ((now - p.created_at + 86400).tdiv 86400) := by
    unfold checked_div_i64
    rw [if_neg]
    push_neg
    exact ⟨by norm_num, fun _ => by norm_num⟩
  have hq0 : 0 ≤ (now - p.created_at + 86400).tdiv 86400 :=
    Int.tdiv_nonneg (by linarith) (by norm_num)
  have hqlt : (now - p.created_at + 86400).tdiv 86400 < (U64_MOD : ℤ) := by
    have hle : (now - p.created_at + 86400).tdiv 86400 ≤
        now - p.created_at + 86400 := by
      rw [Int.tdiv_eq_ediv (by linarith) (by norm_num)]
      exact Int.ediv_le_self _ (by linarith)
    have : (I64_MAX : ℤ) < (U64_MOD : ℤ) := by norm_num [I64_MAX, U64_MOD]
    linarith
  have e4 : i64_as_u64 ((now - p.created_at + 86400).tdiv 86400) =
      ((now - p.created_at + 86400).tdiv 86400).toNat :=
    i64_as_u64_eq hq0 hqlt
  constructor
  · rw [Position.overnight_fee, e1, Option.some_bind, e2, Option.some_bind,
      e3, Option.some_bind]
    show bigToU64 _ = _
    rw [e4]
    have hv0 : 0 ≤ p.amount * (p.leverage : ℚ)
        * ((((now - p.created_at + 86400).tdiv 86400).toNat : ℕ) : ℚ)
        * (p.overnight_fee_numerator : ℚ) / 10000 := by positivity
    unfold bigToU64 ratTrunc
    rw [if_neg (not_lt.mpr hv0)]
    rw [if_pos ⟨Int.floor_nonneg.mpr hv0, h3⟩]
  · intro hnow
    rw [hnow]
    simp

def c5wpos : Position :=
  { pool := 0, owner := 0, index := 0, status := .Open, ptype := .Isolated,
    direction := .Long, decimals := 0, leverage := 2, last_price := 0,
    margin := 0, margin_rate_numerator := 0,
    overnight_fee_numerator := 10000, liquidation := 0, created_at := 0,
    slot := 0, amount := 3 }

theorem c5_witness : c5wpos.overnight_fee 0 = some 6 := by
  have h := (c5_overnight_fee_formula c5wpos 0 (by norm_num [c5wpos])
    (by norm_num [c5wpos]) (by norm_num [c5wpos, I64_MAX])
    (by norm_num [c5wpos, U64_MOD])).1
  rw [h]
  norm_num [c5wpos]
  decide

/-- Claim C6 counterexample input: observed price 15 at exponent -1, zero
slippage tolerance, direction Long. -/
def c6args : PositionArgs :=
  { price := 15, expo := -1, decimals := 0, leverage_margin := 0,
    leverage := 1, ptype := .Isolated, direction := .Long,
    slippage_numerator := 0, margin_rate_numerator := 0 }

/-- Claim C6 is false as stated: the execution price 6/5 lies strictly
below the exactly scaled boundary (15 scaled by exponent -1 is 3/2, so
the boundary is 3/2), hence the claim says the trade is accepted; the
guard nevertheless rejects with SlippageReached, because the code floors
15 div 10 to 1 in u64 integer division before comparing. -/
theorem c6_counterexample :
    check_slippage (6/5 : ℚ) c6args =
      .error ProtocolError.SlippageReached ∧
    (6/5 : ℚ) < ((c6args.price : ℚ) / 10 ^ c6args.expo.natAbs)
      * (1 + (c6args.slippage_numerator : ℚ) / 10000) := by
  constructor
  · simp only [check_slippage, c6args, checked_pow10_u64, checked_div_u64,
      U64_MOD]
    norm_num
  · norm_num [c6args]

/-- Claim C6 amended: with the observed price taken as the integer floor
division of args.price by 10 to the absolute value of args.expo — as the
code computes it before converting to BigDecimal — the guard rejects a
Long exactly when the execution price reaches or exceeds
observed * (1 + slippage), rejects a Short exactly when it reaches or
falls below observed * (1 - slippage), both boundaries inclusive, and for
Long an execution price one unit below the boundary is accepted. -/
theorem c6_slippage_boundaries (args : PositionArgs) (price : ℚ)
    (hpow : 10 ^ args.expo.natAbs < U64_MOD) :
    (args.direction = Direction.Long →
      ((check_slippage price args =
          .error ProtocolError.SlippageReached) ↔
        ((args.price / 10 ^ args.expo.natAbs : ℕ) : ℚ)
          * (1 + (args.slippage_numerator : ℚ) / 10000) ≤ price)) ∧
    (args.direction = Direction.Short →
      ((check_slippage price args =
          .error ProtocolError.SlippageReached) ↔
        price ≤ ((args.price / 10 ^ args.expo.natAbs : ℕ) : ℚ)
          * (1 - (args.slippage_numerator : ℚ) / 10000))) ∧
    (args.direction = Direction.Long →
      check_slippage
        (((args.price / 10 ^ args.expo.natAbs : ℕ) : ℚ)
          * (1 + (args.slippage_numerator : ℚ) / 10000) - 1) args =
        .ok ()) := by
  have hne : ¬ (10 : ℕ) ^ args.expo.natAbs = 0 := by positivity
  refine ⟨fun h => ?_, fun h => ?_, fun h => ?_⟩
  · simp only [check_slippage, checked_pow10_u64, if_pos hpow,
      checked_div_u64, if_neg hne, h]
    split
    · next hc => simp only [hc, iff_true]
    · next hc =>
        simp only [hc, iff_false]
        simp
  · simp only [check_slippage, checked_pow10_u64, if_pos hpow,
      checked_div_u64, if_neg hne, h]
    split
    · next hc => simp only [hc, iff_true]
    · next hc =>
        simp only [hc, iff_false]
        simp
  · simp only [check_slippage, checked_pow10_u64, if_pos hpow,
      checked_div_u64, if_neg hne, h]
    rw [if_neg (by intro hcontra; linarith)]

def c6wargs : PositionArgs :=
  { price := 2000, expo := 0, decimals := 0, leverage_margin := 0,
    leverage := 1, ptype := .Isolated, direction := .Long,
    slippage_numerator := 0, margin_rate_numerator := 0 }

theorem c6_witness :
    check_slippage (2000 : ℚ) c6wargs =
      .error ProtocolError.SlippageReached :=
  ((c6_slippage_boundaries c6wargs 2000
      (by norm_num [c6wargs, U64_MOD])).1 rfl).mpr
    (by norm_num [c6wargs])

/-- Claim C8: increase_margin on a position liquidated at the current
oracle price fails with PositionLiquidated and changes nothing (the
transaction aborts); on a non-liquidated position, when the arithmetic
stays in range, it adds exactly the supplied amount to the margin and
recomputes the liquidation threshold from the original last_price and the
new bond, leaving every other field — in particular amount and
last_price — unchanged. -/
theorem c8_increase_margin (p : Position) (amt : ℕ) (cp : PriceQ) :
    (p.is_liquidated (i64_as_u64 cp.price) = true →
      increase_margin (.ok cp) p amt =
        some (.error ProtocolError.PositionLiquidated)) ∧
    (∀ liq, p.is_liquidated (i64_as_u64 cp.price) = false →
      p.margin + amt < U64_MOD →
      (p.margin + amt) * p.margin_rate_numerator < U64_MOD →
      p.margin_rate_numerator ≤ 10000 →
      get_liquidation p.last_price
        ((p.margin + amt) -
          (p.margin + amt) * p.margin_rate_numerator / 10000)
        p.direction = some liq →
      increase_margin (.ok cp) p amt =
        some (.ok { p with
          margin := p.margin + amt
          liquidation := liq })) := by
  constructor
  · intro h
    simp only [increase_margin, h, if_true]
  · intro liq hnl hm hmul hr hliq
    have hadd : add64 p.margin amt = p.margin + amt := add64_eq hm
    have hbond : ({ p with margin := p.margin + amt } : Position).bond =
        some ((p.margin + amt) -
          (p.margin + amt) * p.margin_rate_numerator / 10000) :=
      bond_eq _ hmul hr hm
    simp only [increase_margin, hnl, Bool.false_eq_true, if_false, hadd,
      hbond, hliq]

def c8pos : Position :=
  { pool := 0, owner := 0, index := 0, status := .Open, ptype := .Isolated,
    direction := .Long, decimals := 0, leverage := 1, last_price := 1000,
    margin := 100, margin_rate_numerator := 0,
    overnight_fee_numerator := 0, liquidation := 900, created_at := 0,
    slot := 0, amount := 0 }

theorem c8_witness :
    increase_margin (.ok ⟨1000, 0, 0⟩) c8pos 50 =
      some (.ok { c8pos with
        margin := 150
        liquidation := 850 }) :=
  (c8_increase_margin c8pos 50 ⟨1000, 0, 0⟩).2 850 (by decide) (by decide)
    (by decide) (by decide) (by decide)

/-- Claim C9: the co-located Ed25519 verification payload is laid out
byte-for-byte as one signature count byte equal to 1, one padding byte,
the little-endian offsets record whose three instruction-index fields all
hold the 0xFFFF self sentinel, then the 32-byte public key at offset 16,
the 64-byte signature at offset 48 and the message at offset 112 with the
declared size — each retrievable at the offset the record declares. -/
theorem c9_ed25519_layout (signature pubkey message : List ℕ)
    (hp : pubkey.length = 32) (hs : signature.length = 64)
    (hm : message.length < 65536) :
    new_ed25519_program_instruction signature pubkey message =
      some (([1, 0] ++ le16 48 ++ le16 65535 ++ le16 16 ++ le16 65535 ++
        le16 112 ++ le16 message.length ++ le16 65535) ++
        (pubkey ++ (signature ++ message))) ∧
    (∀ d, new_ed25519_program_instruction signature pubkey message =
        some d →
      (d.drop 16).take 32 = pubkey ∧
      (d.drop 48).take 64 = signature ∧
      d.drop 112 = message ∧
      d.length = 112 + message.length) := by
  have hmain : new_ed25519_program_instruction signature pubkey message =
      some (([1, 0] ++ le16 48 ++ le16 65535 ++ le16 16 ++ le16 65535 ++
        le16 112 ++ le16 message.length ++ le16 65535) ++
        (pubkey ++ (signature ++ message))) := by
    unfold new_ed25519_program_instruction
    rw [if_pos ⟨by rw [hp]; rfl, by rw [hs]; rfl⟩]
    simp only [Ed25519SignatureOffsets.bytes, DATA_START,
      SIGNATURE_OFFSETS_SERIALIZED_SIZE, SIGNATURE_OFFSETS_START,
      PUBKEY_SERIALIZED_SIZE, SIGNATURE_SERIALIZED_SIZE]
    rw [Nat.mod_eq_of_lt hm]
    simp [List.append_assoc]
  refine ⟨hmain, fun d hd => ?_⟩
  rw [hmain] at hd
  have hdL := Option.some.inj hd
  subst hdL
  have hHlen : ([1, 0] ++ le16 48 ++ le16 65535 ++ le16 16 ++ le16 65535 ++
      le16 112 ++ le16 message.length ++ le16 65535).length = 16 := by
    simp [le16]
  have hdrop16 : (([1, 0] ++ le16 48 ++ le16 65535 ++ le16 16 ++
      le16 65535 ++ le16 112 ++ le16 message.length ++ le16 65535) ++
      (pubkey ++ (signature ++ message))).drop 16 =
      pubkey ++ (signature ++ message) := List.drop_left' hHlen
  have hdrop48 : (([1, 0] ++ le16 48 ++ le16 65535 ++ le16 16 ++
      le16 65535 ++ le16 112 ++ le16 message.length ++ le16 65535) ++
      (pubkey ++ (signature ++ message))).drop 48 =
      signature ++ message := by
    have h2 : (([1, 0] ++ le16 48 ++ le16 65535 ++ le16 16 ++
        le16 65535 ++ le16 112 ++ le16 message.length ++ le16 65535) ++
        (pubkey ++ (signature ++ message))).drop 48 =
        ((([1, 0] ++ le16 48 ++ le16 65535 ++ le16 16 ++
        le16 65535 ++ le16 112 ++ le16 message.length ++ le16 65535) ++
        (pubkey ++ (signature ++ message))).drop 16).drop 32 := by
      rw [List.drop_drop]
    rw [h2, hdrop16, List.drop_left' hp]
  have hdrop112 : (([1, 0] ++ le16 48 ++ le16 65535 ++ le16 16 ++
      le16 65535 ++ le16 112 ++ le16 message.length ++ le16 65535) ++
      (pubkey ++ (signature ++ message))).drop 112 = message := by
    have h2 : (([1, 0] ++ le16 48 ++ le16 65535 ++ le16 16 ++
        le16 65535 ++ le16 112 ++ le16 message.length ++ le16 65535) ++
        (pubkey ++ (signature ++ message))).drop 112 =
        ((([1, 0] ++ le16 48 ++ le16 65535 ++ le16 16 ++
        le16 65535 ++ le16 112 ++ le16 message.length ++ le16 65535) ++
        (pubkey ++ (signature ++ message))).drop 48).drop 64 := by
      rw [List.drop_drop]
    rw [h2, hdrop48, List.drop_left' hs]
  refine ⟨?_, ?_, hdrop112, ?_⟩
  · rw [hdrop16, List.take_left' hp]
  · rw [hdrop48, List.take_left' hs]
  · simp [le16, hp, hs]
    omega

theorem c9_witness :
    ((new_ed25519_program_instruction (List.replicate 64 9)
      (List.replicate 32 7) [3, 4]).getD []).drop 112 = [3, 4] := by
  obtain ⟨h1, h2⟩ := c9_ed25519_layout (List.replicate 64 9)
    (List.replicate 32 7) [3, 4] (by decide) (by decide) (by decide)
  rw [h1]
  exact (h2 _ h1).2.2.1

/-! Structural lemmas about the handlers, used by the lifecycle and
liquidation-side theorems. -/

theorem liq_side_of_get (price : ℤ) (b liq : ℕ) (dir : Direction)
    (h : get_liquidation price b dir = some liq)
    (h0 : 0 ≤ price) (h1 : price ≤ I64_MAX) :
    (dir = Direction.Long → (liq : ℤ) ≤ price) ∧
    (dir = Direction.Short → price ≤ (liq : ℤ)) := by
  have hlt : price < (U64_MOD : ℤ) :=
    lt_of_le_of_lt h1 (by norm_num [I64_MAX, U64_MOD])
  have hcast : ((i64_as_u64 price : ℕ) : ℤ) = price := by
    rw [i64_as_u64_eq h0 hlt]
    exact Int.toNat_of_nonneg h0
  constructor
  · intro hd
    subst hd
    simp only [get_liquidation, checked_sub_u64] at h
    split at h
    · next hle =>
        obtain rfl := Option.some.inj h
        calc ((i64_as_u64 price - b : ℕ) : ℤ)
            ≤ ((i64_as_u64 price : ℕ) : ℤ) := by
              exact_mod_cast Nat.sub_le _ _
          _ = price := hcast
    · exact absurd h (by simp)
  · intro hd
    subst hd
    simp only [get_liquidation, checked_add_u64] at h
    split at h
    · next hlt2 =>
        obtain rfl := Option.some.inj h
        calc price = ((i64_as_u64 price : ℕ) : ℤ) := hcast.symm
          _ ≤ ((i64_as_u64 price + b : ℕ) : ℤ) := by
              exact_mod_cast Nat.le_add_right _ _
    · exact absurd h (by simp)

theorem create_status_open (q : Except ProtocolError PriceQ) (now : ℤ)
    (sl pool owner idx : ℕ) (args : PositionArgs) (p : Position)
    (h : create q now sl pool owner idx args = some (.ok p)) :
    p.status = PositionStatus.Open := by
  simp only [create] at h
  repeat' split at h
  all_goals first
    | (obtain rfl := Except.ok.inj (Option.some.inj h); rfl)
    | simp at h

theorem increase_margin_status (q : Except ProtocolError PriceQ)
    (p : Position) (amt : ℕ) (p1 : Position)
    (h : increase_margin q p amt = some (.ok p1)) :
    p1.status = p.status := by
  simp only [increase_margin] at h
  repeat' split at h
  all_goals first
    | (obtain rfl := Except.ok.inj (Option.some.inj h); rfl)
    | simp at h

theorem process_position_processed (sigOk : Bool)
    (q : Except ProtocolError PriceQ) (p : Position) (data : ProcessData)
    (out : Position × ℕ)
    (h : process_position sigOk q p data = some (.ok out)) :
    out.1.status = PositionStatus.Processed := by
  simp only [process_position] at h
  repeat' split at h
  all_goals first
    | (obtain rfl := Except.ok.inj (Option.some.inj h); rfl)
    | simp at h

theorem step_preserves_open (s : Option Position) (op : Op)
    (hs : ∀ p, s = some p → p.status = PositionStatus.Open) :
    ∀ p, step s op = some p → p.status = PositionStatus.Open := by
  intro p hstep
  cases s with
  | none =>
    cases op with
    | createOp q now sl pool owner idx args =>
      simp only [step] at hstep
      split at hstep
      · next p2 hcreate =>
          obtain rfl := Option.some.inj hstep
          exact create_status_open _ _ _ _ _ _ _ _ hcreate
      · exact absurd hstep (by simp)
    | increaseMarginOp q amt => exact absurd hstep (by simp [step])
    | processPositionOp sigOk q data => exact absurd hstep (by simp [step])
  | some p0 =>
    have hp0 := hs p0 rfl
    cases op with
    | createOp q now sl pool owner idx args =>
      simp only [step] at hstep
      obtain rfl := Option.some.inj hstep
      exact hp0
    | increaseMarginOp q amt =>
      simp only [step] at hstep
      split at hstep
      · next p1 hinc =>
          obtain rfl := Option.some.inj hstep
          exact (increase_margin_status _ _ _ _ hinc).trans hp0
      · obtain rfl := Option.some.inj hstep
        exact hp0
    | processPositionOp sigOk q data =>
      simp only [step] at hstep
      split at hstep
      · exact absurd hstep (by simp)
      · obtain rfl := Option.some.inj hstep
        exact hp0

theorem run_open : ∀ (ops : List Op) (s : Option Position),
    (∀ p, s = some p → p.status = PositionStatus.Open) →
    ∀ p, ops.foldl step s = some p → p.status = PositionStatus.Open := by
  intro ops
  induction ops with
  | nil => exact fun s hs p h => hs p h
  | cons op ops ih =>
    exact fun s hs p h => ih (step s op) (step_preserves_open s op hs) p h

/-- Claim C4: in every reachable store state, the stored position has
status Open (so no stored position is ever Processed, hence no operation
can mutate a position after it reached Processed, and no backward move
Processed to Open ever happens); increase_margin never changes the
status; and a successful process_position hands out the terminal record
with status Processed while removing the account in that same
transaction, as its close constraint prescribes. -/
theorem c4_status_lifecycle :
    (∀ ops p, run ops = some p → p.status = PositionStatus.Open) ∧
    (∀ q p amt p1, increase_margin q p amt = some (.ok p1) →
      p1.status = p.status) ∧
    (∀ sigOk q p data out,
      process_position sigOk q p data = some (.ok out) →
      out.1.status = PositionStatus.Processed ∧
      step (some p) (Op.processPositionOp sigOk q data) = none) := by
  refine ⟨?_, ?_, ?_⟩
  · intro ops p h
    exact run_open ops none (fun p2 hp2 => absurd hp2 (by simp)) p h
  · intro q p amt p1 h
    exact increase_margin_status q p amt p1 h
  · intro sigOk q p data out h
    refine ⟨process_position_processed sigOk q p data out h, ?_⟩
    simp only [step, h]

def c4args : PositionArgs :=
  { price := 2000, expo := 0, decimals := 0, leverage_margin := 500,
    leverage := 1, ptype := .Isolated, direction := .Long,
    slippage_numerator := 10000, margin_rate_numerator := 0 }

def c4pos : Position :=
  { pool := 0, owner := 0, index := 0, status := .Open, ptype := .Isolated,
    direction := .Long, decimals := 0, leverage := 0, last_price := 1000,
    margin := 500, margin_rate_numerator := 0,
    overnight_fee_numerator := 0, liquidation := 500, created_at := 0,
    slot := 0, amount := 1/2 }

theorem c4_run_concrete :
    run [Op.createOp (.ok ⟨1000, 0, 0⟩) 0 0 0 0 0 c4args] = some c4pos := by
  have hcs : check_slippage (1000 : ℚ) c4args = .ok () := by
    simp only [check_slippage, c4args, checked_pow10_u64, checked_div_u64,
      U64_MOD]
    norm_num
  have hcreate : create (.ok ⟨1000, 0, 0⟩) 0 0 0 0 0 c4args =
      some (.ok c4pos) := by
    simp only [c4args] at hcs
    simp only [create, c4args, PositionArgs.margin, checked_div_u64,
      MAX_LEVERAGE, Position.bond, Position.maintainance_margin,
      checked_mul_u64, U64_MOD, sub64, i64_as_u64, get_liquidation,
      checked_sub_u64, checked_add_u64, get_asset_amount, c4pos]
    have ht1 : Int.toNat 1000 = (1000 : ℕ) := rfl
    have ht5 : Int.toNat 500 = (500 : ℕ) := rfl
    norm_num [hcs, Position.mk.injEq, ht1, ht5]
  simp only [run, List.foldl, step, hcreate]

theorem c4_witness : c4pos.status = PositionStatus.Open :=
  c4_status_lifecycle.1 [Op.createOp (.ok ⟨1000, 0, 0⟩) 0 0 0 0 0 c4args]
    c4pos c4_run_concrete

/-- Claim C10: every position successfully returned by create, and every
position successfully updated by increase_margin, has its liquidation
threshold on the loss side of its recorded entry price: at or below
last_price for Long, at or above last_price for Short (stated for entry
prices that are valid non-negative i64 values). -/
theorem c10_liquidation_side :
    (∀ q now sl pool owner idx args p,
      create q now sl pool owner idx args = some (.ok p) →
      0 ≤ p.last_price → p.last_price ≤ I64_MAX →
      ((p.direction = Direction.Long →
        (p.liquidation : ℤ) ≤ p.last_price) ∧
       (p.direction = Direction.Short →
        p.last_price ≤ (p.liquidation : ℤ)))) ∧
    (∀ q p amt p1, increase_margin q p amt = some (.ok p1) →
      0 ≤ p1.last_price → p1.last_price ≤ I64_MAX →
      ((p1.direction = Direction.Long →
        (p1.liquidation : ℤ) ≤ p1.last_price) ∧
       (p1.direction = Direction.Short →
        p1.last_price ≤ (p1.liquidation : ℤ)))) := by
  constructor
  · intro q now sl pool owner idx args p h h0 h1
    simp only [create] at h
    repeat' split at h
    all_goals first
      | (obtain rfl := Except.ok.inj (Option.some.inj h);
         exact liq_side_of_get _ _ _ _ (by assumption) h0 h1)
      | simp at h
  · intro q p amt p1 h h0 h1
    simp only [increase_margin] at h
    repeat' split at h
    all_goals first
      | (obtain rfl := Except.ok.inj (Option.some.inj h);
         exact liq_side_of_get _ _ _ _ (by assumption) h0 h1)
      | simp at h

def c10pos : Position :=
  { pool := 0, owner := 0, index := 0, status := .Open, ptype := .Isolated,
    direction := .Long, decimals := 0, leverage := 1, last_price := 1000,
    margin := 100, margin_rate_numerator := 0,
    overnight_fee_numerator := 0, liquidation := 900, created_at := 0,
    slot := 0, amount := 0 }

def c10pos2 : Position :=
  { c10pos with
    margin := 150
    liquidation := 850 }

theorem c10_witness :
    (c10pos2.direction = Direction.Long →
      (c10pos2.liquidation : ℤ) ≤ c10pos2.last_price) ∧
    (c10pos2.direction = Direction.Short →
      c10pos2.last_price ≤ (c10pos2.liquidation : ℤ)) :=
  c10_liquidation_side.2 (.ok ⟨1000, 0, 0⟩) c10pos 50 c10pos2 (by rfl)
    (by decide) (by decide)

end ScaleProtocol
